import Mathlib

/-
Verification of the blog generator (`holocron/ext/generators/blog.py`).

The Python module is shallowly embedded below: documents are records, Python
strings are lists of characters (`Str`), `datetime` values are records of
numeric fields, and the filesystem side effects of `index`, `tags` and `feed`
are modelled by explicit state passing over an `FS` record, with fallible
writes returning `Except`.
-/

/-- Python strings are embedded as lists of characters. -/
abbrev Str := List Char

/-- A document produced by the content pipeline.  `isPost` is the
`isinstance(doc, Post)` discriminant; `created` is the ordering key of the
`created` datetime attribute; `tags` is `none` when the Python object has no
`tags` attribute (the code reads it with `getattr(post, 'tags', [])`).  The
timestamp attributes that the feed template renders via `.isoformat()` are
kept as their rendered strings, since only the `created` key is ever compared. -/
structure Document where
  isPost : Bool
  created : Int
  title : Str
  content : Str
  absUrl : Str
  author : Str
  createdLocalIso : Str
  updatedLocalIso : Str
  tags : Option (List Str)
deriving DecidableEq

/-- `getattr(post, 'tags', [])`: a missing tag list is treated as empty. -/
def Document.tagList (d : Document) : List Str :=
  d.tags.getD []

/-- Insert a document into a list sorted by `created` descending, placing it
before the first element whose key is not larger.  This is the unique stable
descending insertion, matching `sorted(posts, key=lambda d: d.created,
reverse=True)` (Python's sort is stable and `reverse=True` keeps ties in
input order). -/
def insertDesc (d : Document) : List Document → List Document
  | [] => [d]
  | y :: ys => if y.created ≤ d.created then d :: y :: ys else y :: insertDesc d ys

/-- Stable sort by `created` descending. -/
def sortDesc : List Document → List Document
  | [] => []
  | x :: xs => insertDesc x (sortDesc xs)

/-- `Blog.extract_posts`: keep the `Post`-variant documents and sort them by
`created` descending. -/
def extract_posts (documents : List Document) : List Document :=
  sortDesc (documents.filter (fun d => d.isPost))

/-- Append `p` to the group of tag `t` in an association list, creating the
group at the end when absent — the behaviour of `defaultdict(list)` under
`tags[tag].append(post)` (Python dicts preserve insertion order). -/
def addToTag (m : List (Str × List Document)) (t : Str) (p : Document) :
    List (Str × List Document) :=
  match m with
  | [] => [(t, [p])]
  | (t', ps) :: rest =>
    if t' = t then (t', ps ++ [p]) :: rest else (t', ps) :: addToTag rest t p

/-- The tag index built by `Blog.tags`: iterate the posts in order and, for
each tag of each post, append the post to that tag's group. -/
def buildTagIndex (posts : List Document) : List (Str × List Document) :=
  posts.foldl (fun m p => p.tagList.foldl (fun m' t => addToTag m' t p) m) []

/-- Look a tag up in the index; a missing tag has the empty group. -/
def lookupTag : List (Str × List Document) → Str → List Document
  | [], _ => []
  | (t', ps) :: rest, t => if t' = t then ps else lookupTag rest t

/-- Number of occurrences of a tag in a tag list. -/
def countOcc (t : Str) : List Str → Nat
  | [] => 0
  | t' :: ts => (if t' = t then 1 else 0) + countOcc t ts

/-- Specification of a tag's group: each post repeated once per occurrence of
the tag in its tag list, in post order. -/
def groupOf (posts : List Document) (t : Str) : List Document :=
  match posts with
  | [] => []
  | p :: ps => List.replicate (countOcc t p.tagList) p ++ groupOf ps t

/-- Python's `l[:n]` for an integer bound: a nonnegative bound takes that many
leading elements; a negative bound keeps `len(l) + n` of them (none when that
is not positive). -/
def pyTruncate (n : Int) (l : List Document) : List Document :=
  if 0 ≤ n then l.take n.toNat else l.take (l.length - (-n).toNat)

/-- The per-character replacement of Jinja2's `e` (HTML escape) filter:
`&`, `<`, `>`, `"` and the apostrophe (code 39) become entities, every other
character is kept. -/
def escapeChar (c : Char) : Str :=
  if c = '&' then ['&', 'a', 'm', 'p', ';']
  else if c = '<' then ['&', 'l', 't', ';']
  else if c = '>' then ['&', 'g', 't', ';']
  else if c = '"' then ['&', '#', '3', '4', ';']
  else if c.toNat = 39 then ['&', '#', '3', '9', ';']
  else [c]

/-- Jinja2's `e` filter applied to a whole string. -/
def htmlEscape : Str → Str
  | [] => []
  | c :: cs => escapeChar c ++ htmlEscape cs

/-- A naive `datetime.datetime` value as produced by `datetime.utcnow()`. -/
structure PyDatetime where
  year : Nat
  month : Nat
  day : Nat
  hour : Nat
  minute : Nat
  second : Nat
  microsecond : Nat
deriving DecidableEq

/-- `dt.replace(microsecond=µ)`. -/
def PyDatetime.replaceMicrosecond (d : PyDatetime) (m : Nat) : PyDatetime :=
  { d with microsecond := m }

/-- The character of a decimal digit. -/
def digitChar (d : Nat) : Char :=
  Char.ofNat (48 + d % 10)

/-- Decimal digits of a number, most significant first (fuelled recursion). -/
def natCharsAux : Nat → Nat → Str
  | 0, _ => []
  | fuel + 1, n => if n < 10 then [digitChar n] else natCharsAux fuel (n / 10) ++ [digitChar (n % 10)]

/-- Decimal rendering of a natural number. -/
def natChars (n : Nat) : Str :=
  natCharsAux (n + 1) n

/-- Zero-pad a decimal rendering on the left to width `w`. -/
def padZeros (w n : Nat) : Str :=
  List.replicate (w - (natChars n).length) '0' ++ natChars n

/-- `datetime.isoformat()` on a naive value: `YYYY-MM-DDTHH:MM:SS`, with the
`.ffffff` fraction appended only when the microsecond field is nonzero, and no
UTC offset. -/
def pyIsoformat (d : PyDatetime) : Str :=
  padZeros 4 d.year ++ '-' :: padZeros 2 d.month ++ '-' :: padZeros 2 d.day ++
    'T' :: padZeros 2 d.hour ++ ':' :: padZeros 2 d.minute ++ ':' :: padZeros 2 d.second ++
    (if d.microsecond = 0 then [] else '.' :: padZeros 6 d.microsecond)

/-- Collapse every run of slashes to a single slash. -/
def collapseSlashes : Str → Str
  | [] => []
  | [c] => [c]
  | c :: d :: rest =>
    if c = '/' ∧ d = '/' then collapseSlashes (d :: rest)
    else c :: collapseSlashes (d :: rest)

/-- Split a URL at the first scheme separator, keeping the separator with the
head part. -/
def afterScheme : Str → Option (Str × Str)
  | [] => none
  | ':' :: '/' :: '/' :: rest => some (("://").data, rest)
  | c :: rest => (afterScheme rest).map (fun pr => (c :: pr.1, pr.2))

/-- Modelled from the spec: `normalize_url` lives in `holocron.utils`, which is
not part of the sources under verification; per the spec it removes redundant
slashes from the configured site URL, yielding its canonical absolute form,
with the scheme's own `://` separator kept intact and no other modification. -/
def normalize_url (u : Str) : Str :=
  match afterScheme u with
  | some (pre, rest) => pre ++ collapseSlashes rest
  | none => collapseSlashes u

/-- The transient `credentials` mapping that `Blog.feed` hands to the Atom
template. -/
structure Credentials where
  siteurl_self : Str
  siteurl_alt : Str
  sitename : Str
  date : PyDatetime

/-- Text of a feed entry up to and including the opening of its
`<content type="html">` element (first part of the `{% for %}` loop body of
`feed_template`, with the document's attributes spliced in). -/
def entryPre (doc : Document) : Str :=
  ("\n    <entry>\n      <title>").data ++ doc.title ++
  ("</title>\n      <link href=\"").data ++ doc.absUrl ++
  ("\" rel=\"alternate\" />\n      <id>").data ++ doc.absUrl ++
  ("</id>\n      <published>").data ++ doc.createdLocalIso ++
  ("</published>\n      <updated>").data ++ doc.updatedLocalIso ++
  ("</updated>\n      <author>\n        <name>").data ++ doc.author ++
  ("</name>\n      </author>\n      <content type=\"html\">\n        ").data

/-- Text of a feed entry after its content body: the closing of the
`<content>` element and of the entry. -/
def entryAfter : Str :=
  ("\n      </content>\n    </entry>\n    ").data

/-- One iteration of the `{% for doc in documents %}` body of `feed_template`:
the literal text between the loop tags with the document's attributes spliced
in, the content body passed through the `e` (HTML escape) filter. -/
def renderEntry (doc : Document) : Str :=
  ("\n    <entry>\n      <title>").data ++ doc.title ++
  ("</title>\n      <link href=\"").data ++ doc.absUrl ++
  ("\" rel=\"alternate\" />\n      <id>").data ++ doc.absUrl ++
  ("</id>\n      <published>").data ++ doc.createdLocalIso ++
  ("</published>\n      <updated>").data ++ doc.updatedLocalIso ++
  ("</updated>\n      <author>\n        <name>").data ++ doc.author ++
  ("</name>\n      </author>\n      <content type=\"html\">\n        ").data ++
  htmlEscape doc.content ++
  ("\n      </content>\n    </entry>\n    ").data

/-- The concatenated loop bodies for a document list. -/
def joinEntries : List Document → Str
  | [] => []
  | doc :: docs => renderEntry doc ++ joinEntries docs

/-- Head of `feed_template` up to the `<updated>` element's text, with the
site name spliced into the `<title>`. -/
def feedContentPre (sitename : Str) : Str :=
  ("<?xml version=\"1.0\" encoding=\"utf-8\"?>\n  <feed xmlns=\"http://www.w3.org/2005/Atom\" >\n    <title>").data ++
  sitename ++ (" Feed</title>\n    <updated>").data

/-- Literal text of `feed_template` between the `<updated>` element and the
entry loop, with the two site URLs spliced in. -/
def feedSufHead (siteurl_alt siteurl_self : Str) : Str :=
  ("</updated>\n    <id>").data ++ siteurl_alt ++
  ("</id>\n    \n    <link href=\"").data ++ siteurl_self ++
  ("\" rel=\"self\" />\n    <link href=\"").data ++ siteurl_alt ++
  ("\" rel=\"alternate\" />\n    \n    <generator>Holocron</generator>\n    ").data

/-- Closing text of `feed_template`. -/
def feedClose : Str :=
  ("\n  </feed>").data

/-- Rest of `feed_template` after the `Z` of the `<updated>` element.  It
does not depend on the generation timestamp. -/
def feedContentSuf (siteurl_alt siteurl_self : Str) (documents : List Document) : Str :=
  feedSufHead siteurl_alt siteurl_self ++ joinEntries documents ++ feedClose

/-- `Blog.feed_template.render(documents=..., credentials=...)`: the fixed
Atom template of the source, rendered to text.  The `<updated>` element is
`credentials.date.isoformat() + "Z"`, a manual concatenation of the plain ISO
string with a literal `Z`. -/
def renderFeedTemplate (credentials : Credentials) (documents : List Document) : Str :=
  feedContentPre credentials.sitename ++
  pyIsoformat credentials.date ++
  'Z' :: feedContentSuf credentials.siteurl_alt credentials.siteurl_self documents

/-- `os.path.join` on POSIX paths, for the joins the generator performs. -/
def joinPath (a b : Str) : Str :=
  if b.head? = some '/' then b
  else if a = [] then b
  else if a.getLast? = some '/' then a ++ b
  else a ++ '/' :: b

/-- `os.path.dirname` on POSIX paths: the part before the last slash, with
trailing slashes stripped unless the result is all slashes. -/
def dirname (p : Str) : Str :=
  let r := p.reverse.dropWhile (fun c => c ≠ '/')
  if r.all (fun c => c = '/') then r.reverse
  else (r.dropWhile (fun c => c = '/')).reverse

/-- The one failure this stage surfaces: a filesystem write into a missing
directory. -/
inductive FsError where
  | fileSystemError
deriving DecidableEq

/-- Store a file, overwriting any previous content at the same path. -/
def setFile : List (Str × Str) → Str → Str → List (Str × Str)
  | [], p, c => [(p, c)]
  | f :: fs, p, c => if f.1 = p then (p, c) :: fs else f :: setFile fs p c

/-- Content stored at a path, if any. -/
def getFile : List (Str × Str) → Str → Option Str
  | [], _ => none
  | f :: fs, p => if f.1 = p then some f.2 else getFile fs p

/-- The filesystem state the generator mutates: the set of existing
directories and the contents of the written files. -/
structure FS where
  dirs : List Str
  files : List (Str × Str)
deriving DecidableEq

/-- `open(path, 'w')`: succeeds and overwrites when the parent directory
exists (the empty dirname stands for the current directory, which always
exists); otherwise the missing directory surfaces as a filesystem error. -/
def FS.writeFile (fs : FS) (p : Str) (c : Str) : Except FsError FS :=
  if dirname p ∈ fs.dirs ∨ dirname p = [] then
    .ok { fs with files := setFile fs.files p c }
  else .error .fileSystemError

/-- Modelled from the spec: `mkdir` lives in `holocron.utils`, which is not
part of the sources under verification; per the spec it creates the directory
and its missing ancestors recursively, and creating an existing directory is
not an error.  Fuelled recursion on the shrinking dirname chain. -/
def mkdirFuel : Nat → FS → Str → FS
  | 0, fs, _ => fs
  | fuel + 1, fs, p =>
    if p = [] ∨ p ∈ fs.dirs then fs
    else
      let fs' := mkdirFuel fuel fs (dirname p)
      { fs' with dirs := p :: fs'.dirs }

/-- Recursive directory creation (see `mkdirFuel`). -/
def FS.mkdir (fs : FS) (p : Str) : FS :=
  mkdirFuel (p.length + 1) fs p

/-- The configuration fields the generator reads (section 6 of the spec). -/
structure Conf where
  output : Str
  indexSaveAs : Str
  tagsOutput : Str
  tagsSaveAs : Str
  feedSaveAs : Str
  feedPostsNumber : Int
  sitename : Str
  siteurl : Str
deriving DecidableEq

/-- The index page's output path, `os.path.join(self._output, save_as)`. -/
def indexPath (conf : Conf) : Str :=
  joinPath conf.output conf.indexSaveAs

/-- A tag page's directory, `os.path.join(self._output, tags.output, tag)`. -/
def tagDirPath (conf : Conf) (t : Str) : Str :=
  joinPath (joinPath conf.output conf.tagsOutput) t

/-- A tag page's file path, `os.path.join(path, save_as)`. -/
def tagFilePath (conf : Conf) (t : Str) : Str :=
  joinPath (tagDirPath conf t) conf.tagsSaveAs

/-- The feed's output path, `os.path.join(self._output, save_as)`. -/
def feedPath (conf : Conf) : Str :=
  joinPath conf.output conf.feedSaveAs

/-- The shared document-list template is external to this module (an opaque
render capability per the spec); it maps the post list and site name to text. -/
abbrev Tmpl := List Document → Str → Str

/-- `Blog.index`: render the full post list and write it to the index path.
No directory is created first. -/
def Blog.index (conf : Conf) (tmpl : Tmpl) (posts : List Document) (fs : FS) :
    Except FsError FS :=
  fs.writeFile (indexPath conf) (tmpl posts conf.sitename)

/-- The per-tag loop of `Blog.tags`: create the tag's directory, then render
that tag's group and write it to the tag's page path; a write failure stops
the loop. -/
def tagsLoop (conf : Conf) (tmpl : Tmpl) :
    List (Str × List Document) → FS → Except FsError FS
  | [], fs => .ok fs
  | tg :: rest, fs =>
    match ((fs.mkdir (tagDirPath conf tg.1)).writeFile (tagFilePath conf tg.1)
        (tmpl tg.2 conf.sitename)) with
    | .ok fs' => tagsLoop conf tmpl rest fs'
    | .error e => .error e

/-- `Blog.tags`: build the tag index, then write one page per distinct tag. -/
def Blog.tags (conf : Conf) (tmpl : Tmpl) (posts : List Document) (fs : FS) :
    Except FsError FS :=
  tagsLoop conf tmpl (buildTagIndex posts) fs

/-- The `credentials` record `Blog.feed` builds: normalized site URL, the
same URL with the feed's relative save path appended, the site name, and the
current UTC time with the microsecond field zeroed. -/
def feedCredentials (conf : Conf) (now : PyDatetime) : Credentials :=
  { siteurl_self := normalize_url conf.siteurl ++ conf.feedSaveAs
    siteurl_alt := normalize_url conf.siteurl
    sitename := conf.sitename
    date := now.replaceMicrosecond 0 }

/-- The text `Blog.feed` writes: the Atom template over the truncated post
list and the credentials. -/
def feedContent (conf : Conf) (now : PyDatetime) (posts : List Document) : Str :=
  renderFeedTemplate (feedCredentials conf now) (pyTruncate conf.feedPostsNumber posts)

/-- `Blog.feed`: truncate the posts to `posts[:posts_number]`, create the
parent directory of the feed path, and write the rendered feed. -/
def Blog.feed (conf : Conf) (now : PyDatetime) (posts : List Document) (fs : FS) :
    Except FsError FS :=
  (fs.mkdir (dirname (feedPath conf))).writeFile (feedPath conf) (feedContent conf now posts)

/-- `Blog.generate`: extract the posts once and run the three emitters in
sequence, each on the filesystem state the previous one left. -/
def Blog.generate (conf : Conf) (tmpl : Tmpl) (now : PyDatetime)
    (documents : List Document) (fs : FS) : Except FsError FS :=
  let posts := extract_posts documents
  (Blog.index conf tmpl posts fs).bind fun fs₁ =>
    (Blog.tags conf tmpl posts fs₁).bind fun fs₂ =>
      Blog.feed conf now posts fs₂

/-- The (path, content) writes of the tag pages, in loop order. -/
def tagWrites (conf : Conf) (tmpl : Tmpl) (idx : List (Str × List Document)) :
    List (Str × Str) :=
  idx.map fun tg => (tagFilePath conf tg.1, tmpl tg.2 conf.sitename)

/-- All (path, content) writes of one `generate` run, in order. -/
def generateWrites (conf : Conf) (tmpl : Tmpl) (now : PyDatetime)
    (documents : List Document) : List (Str × Str) :=
  let posts := extract_posts documents
  ((indexPath conf, tmpl posts conf.sitename) :: tagWrites conf tmpl (buildTagIndex posts)) ++
    [(feedPath conf, feedContent conf now posts)]

/-- Replay a list of writes over a file store. -/
def applyWrites : List (Str × Str) → List (Str × Str) → List (Str × Str)
  | [], files => files
  | w :: ws, files => applyWrites ws (setFile files w.1 w.2)

/-- The content of the last write at a path, if the path is written at all. -/
def lastWrite : List (Str × Str) → Str → Option Str
  | [], _ => none
  | w :: ws, p =>
    match lastWrite ws p with
    | some c => some c
    | none => if w.1 = p then some w.2 else none

/-- Sample post, created last, tagged `go`, body containing `<script>`. -/
def docP1 : Document :=
  ⟨true, 3, ("A").data, ("x<script>y").data, ("/a").data, ("ann").data,
    ("2024-01-03T00:00:00").data, ("2024-01-03T00:00:00").data, some [("go").data]⟩

/-- Sample post, created second, tagged `go` and `rust`. -/
def docP2 : Document :=
  ⟨true, 2, ("B").data, ("hello").data, ("/b").data, ("bob").data,
    ("2024-01-02T00:00:00").data, ("2024-01-02T00:00:00").data,
    some [("go").data, ("rust").data]⟩

/-- Sample post, created first, with no `tags` attribute. -/
def docP3 : Document :=
  ⟨true, 1, ("C").data, ("hi").data, ("/c").data, ("cat").data,
    ("2024-01-01T00:00:00").data, ("2024-01-01T00:00:00").data, none⟩

/-- Sample non-post document. -/
def docQ : Document :=
  ⟨false, 5, ("Q").data, ("page").data, ("/q").data, ("quinn").data,
    ("2024-01-05T00:00:00").data, ("2024-01-05T00:00:00").data, none⟩

/-- Sample input document list, unsorted and with a non-post in it. -/
def docsW : List Document :=
  [docP3, docQ, docP1, docP2]

/-- The sorted post list of `docsW`. -/
def postsSortedW : List Document :=
  [docP1, docP2, docP3]

/-- Sample configuration. -/
def confW : Conf :=
  { output := ("out").data
    indexSaveAs := ("index.html").data
    tagsOutput := ("tags").data
    tagsSaveAs := ("index.html").data
    feedSaveAs := ("feed.atom").data
    feedPostsNumber := 2
    sitename := ("Site").data
    siteurl := ("http://example.com//blog").data }

/-- Sample configuration with a negative feed posts number. -/
def confNeg : Conf :=
  { confW with feedPostsNumber := -1 }

/-- Sample document-list template: site name followed by the post count. -/
def tmplW : Tmpl :=
  fun ps sn => sn ++ natChars ps.length

/-- Sample initial filesystem whose output root exists. -/
def fsW : FS :=
  { dirs := [("out").data], files := [] }

/-- A filesystem with no directories at all. -/
def fsEmpty : FS :=
  { dirs := [], files := [] }

/-- Sample generation instant with a nonzero microsecond field. -/
def nowW1 : PyDatetime :=
  ⟨2024, 1, 5, 12, 0, 0, 123⟩

/-- A later generation instant. -/
def nowW2 : PyDatetime :=
  ⟨2024, 1, 6, 13, 30, 5, 0⟩

/-- Result of a first `generate` run on the sample input. -/
def c9run1 : FS :=
  match Blog.generate confW tmplW nowW1 docsW fsW with
  | .ok fs => fs
  | .error _ => fsEmpty

/-- Result of a second `generate` run, at another instant, on the state the
first run left. -/
def c9run2 : FS :=
  match Blog.generate confW tmplW nowW2 docsW c9run1 with
  | .ok fs => fs
  | .error _ => fsEmpty

/-- Sample feed credentials. -/
def credsW : Credentials :=
  feedCredentials confW nowW1


lemma mem_insertDesc {x d : Document} {l : List Document} :
    x ∈ insertDesc d l ↔ x = d ∨ x ∈ l := by
  induction l with
  | nil => simp [insertDesc]
  | cons y ys ih =>
    simp only [insertDesc]
    split
    · simp [List.mem_cons]
    · simp only [List.mem_cons, ih]
      tauto

lemma insertDesc_perm (d : Document) (l : List Document) :
    List.Perm (insertDesc d l) (d :: l) := by
  induction l with
  | nil => simp [insertDesc]
  | cons y ys ih =>
    simp only [insertDesc]
    split
    · exact List.Perm.refl _
    · exact (ih.cons y).trans (List.Perm.swap d y ys)

lemma sortDesc_perm (l : List Document) : List.Perm (sortDesc l) l := by
  induction l with
  | nil => exact List.Perm.refl _
  | cons x xs ih => exact (insertDesc_perm x (sortDesc xs)).trans (ih.cons x)

lemma pairwise_insertDesc {l : List Document} (d : Document)
    (h : l.Pairwise (fun a b => b.created ≤ a.created)) :
    (insertDesc d l).Pairwise (fun a b => b.created ≤ a.created) := by
  induction l with
  | nil => simp [insertDesc]
  | cons y ys ih =>
    rcases List.pairwise_cons.mp h with ⟨hy, hys⟩
    simp only [insertDesc]
    split
    case isTrue hc =>
      refine List.pairwise_cons.mpr ⟨?_, h⟩
      intro b hb
      rcases List.mem_cons.mp hb with rfl | hb
      · exact hc
      · exact (hy b hb).trans hc
    case isFalse hc =>
      refine List.pairwise_cons.mpr ⟨?_, ih hys⟩
      intro b hb
      rcases mem_insertDesc.mp hb with rfl | hb
      · exact le_of_not_le hc
      · exact hy b hb

lemma sortDesc_pairwise (l : List Document) :
    (sortDesc l).Pairwise (fun a b => b.created ≤ a.created) := by
  induction l with
  | nil => simp [sortDesc]
  | cons x xs ih => exact pairwise_insertDesc x ih

lemma filter_insertDesc (d : Document) (l : List Document) (k : Int) :
    (insertDesc d l).filter (fun x => decide (x.created = k)) =
      if d.created = k then d :: l.filter (fun x => decide (x.created = k))
      else l.filter (fun x => decide (x.created = k)) := by
  induction l with
  | nil => by_cases hd : d.created = k <;> simp [insertDesc, hd]
  | cons y ys ih =>
    simp only [insertDesc]
    split
    case isTrue hc =>
      by_cases hd : d.created = k <;> simp [List.filter_cons, hd]
    case isFalse hc =>
      by_cases hd : d.created = k
      · have hy : ¬ y.created = k := by
          intro hy
          exact hc (by rw [hy, hd])
        simp [List.filter_cons, hy, ih, hd]
      · by_cases hy : y.created = k <;> simp [List.filter_cons, hy, ih, hd]

lemma sortDesc_filter (l : List Document) (k : Int) :
    (sortDesc l).filter (fun x => decide (x.created = k)) =
      l.filter (fun x => decide (x.created = k)) := by
  induction l with
  | nil => simp [sortDesc]
  | cons x xs ih =>
    simp only [sortDesc]
    rw [filter_insertDesc]
    by_cases hx : x.created = k <;> simp [List.filter_cons, hx, ih]

/-- C1: `extract_posts` returns exactly the Post-variant documents, ordered
with `created` monotonically non-increasing, and documents of equal `created`
keep their relative input order (the sort is stable). -/
theorem claim_C1 (documents : List Document) :
    List.Perm (extract_posts documents) (documents.filter (fun d => d.isPost)) ∧
    (extract_posts documents).Pairwise (fun a b => b.created ≤ a.created) ∧
    ∀ k : Int,
      (extract_posts documents).filter (fun d => decide (d.created = k)) =
        (documents.filter (fun d => d.isPost)).filter (fun d => decide (d.created = k)) := by
  unfold extract_posts
  exact ⟨sortDesc_perm _, sortDesc_pairwise _, fun k => sortDesc_filter _ k⟩

lemma lookupTag_addToTag (m : List (Str × List Document)) (t' : Str) (p : Document) (t : Str) :
    lookupTag (addToTag m t' p) t =
      if t' = t then lookupTag m t ++ [p] else lookupTag m t := by
  induction m with
  | nil => by_cases h : t' = t <;> simp [addToTag, lookupTag, h]
  | cons f rest ih =>
    obtain ⟨a, ps⟩ := f
    by_cases hat : a = t'
    · subst hat
      by_cases hat2 : a = t <;> simp [addToTag, lookupTag, hat2]
    · by_cases hat2 : a = t
      · subst hat2
        have ht : ¬ t' = a := fun h => hat h.symm
        simp [addToTag, lookupTag, hat, ht]
      · simp [addToTag, lookupTag, hat, hat2, ih]

lemma lookupTag_foldTags (ts : List Str) (p : Document) (m : List (Str × List Document)) (t : Str) :
    lookupTag (ts.foldl (fun m' t' => addToTag m' t' p) m) t =
      lookupTag m t ++ List.replicate (countOcc t ts) p := by
  induction ts generalizing m with
  | nil => simp [countOcc]
  | cons t' rest ih =>
    simp only [List.foldl_cons, countOcc]
    rw [ih, lookupTag_addToTag]
    by_cases h : t' = t
    · simp [h, List.replicate_add, List.append_assoc]
    · simp [h]

lemma lookupTag_build_aux (posts : List Document) (m : List (Str × List Document)) (t : Str) :
    lookupTag (posts.foldl (fun m' p => p.tagList.foldl (fun m'' t' => addToTag m'' t' p) m') m) t =
      lookupTag m t ++ groupOf posts t := by
  induction posts generalizing m with
  | nil => simp [groupOf]
  | cons p ps ih =>
    simp only [List.foldl_cons, groupOf]
    rw [ih, lookupTag_foldTags, List.append_assoc]

lemma lookupTag_buildTagIndex (posts : List Document) (t : Str) :
    lookupTag (buildTagIndex posts) t = groupOf posts t := by
  have h := lookupTag_build_aux posts [] t
  simpa [buildTagIndex, lookupTag] using h

lemma countOcc_ne_zero {t : Str} {ts : List Str} : countOcc t ts ≠ 0 ↔ t ∈ ts := by
  induction ts with
  | nil => simp [countOcc]
  | cons a rest ih =>
    by_cases h : a = t
    · subst h
      simp [countOcc]
    · have h' : ¬ t = a := fun hh => h hh.symm
      simp [countOcc, h, h', ih]

lemma mem_groupOf {x : Document} {posts : List Document} {t : Str} :
    x ∈ groupOf posts t ↔ x ∈ posts ∧ t ∈ x.tagList := by
  induction posts with
  | nil => simp [groupOf]
  | cons p ps ih =>
    simp only [groupOf, List.mem_append, List.mem_replicate, ih, List.mem_cons]
    constructor
    · rintro (⟨hn, rfl⟩ | ⟨hx, ht⟩)
      · exact ⟨Or.inl rfl, countOcc_ne_zero.mp hn⟩
      · exact ⟨Or.inr hx, ht⟩
    · rintro ⟨rfl | hx, ht⟩
      · exact Or.inl ⟨countOcc_ne_zero.mpr ht, rfl⟩
      · exact Or.inr ⟨hx, ht⟩

lemma pairwise_replicate {R : Document → Document → Prop} {a : Document}
    (h : R a a) (n : Nat) : (List.replicate n a).Pairwise R := by
  induction n with
  | zero => simp
  | succ k ih =>
    rw [List.replicate_succ]
    refine List.pairwise_cons.mpr ⟨?_, ih⟩
    intro b hb
    rw [List.eq_of_mem_replicate hb]
    exact h

lemma pairwise_groupOf {posts : List Document} {t : Str}
    (h : posts.Pairwise (fun a b => b.created ≤ a.created)) :
    (groupOf posts t).Pairwise (fun a b => b.created ≤ a.created) := by
  induction posts with
  | nil => simp [groupOf]
  | cons p ps ih =>
    rcases List.pairwise_cons.mp h with ⟨hp, hps⟩
    simp only [groupOf]
    rw [List.pairwise_append]
    refine ⟨pairwise_replicate (le_refl p.created) _, ih hps, ?_⟩
    intro a ha b hb
    rw [List.eq_of_mem_replicate ha]
    exact hp b (mem_groupOf.mp hb).1

/-- C2: the tag index groups are complete (a post carrying a tag is in that
tag's group, a post with two tags is in both groups), sound (a post in a
group carries the tag, so tagless posts contribute nothing), and each group
keeps the creation-date-descending order of the sorted input list. -/
theorem claim_C2 (posts : List Document) (t : Str)
    (h : posts.Pairwise (fun a b => b.created ≤ a.created)) :
    (∀ p ∈ posts, t ∈ p.tagList → p ∈ lookupTag (buildTagIndex posts) t) ∧
    (∀ p ∈ posts, ∀ a b : Str, a ∈ p.tagList → b ∈ p.tagList →
      p ∈ lookupTag (buildTagIndex posts) a ∧ p ∈ lookupTag (buildTagIndex posts) b) ∧
    (∀ p ∈ lookupTag (buildTagIndex posts) t, p ∈ posts ∧ t ∈ p.tagList) ∧
    (lookupTag (buildTagIndex posts) t).Pairwise (fun a b => b.created ≤ a.created) := by
  refine ⟨?_, ?_, ?_, ?_⟩
  · intro p hp ht
    rw [lookupTag_buildTagIndex]
    exact mem_groupOf.mpr ⟨hp, ht⟩
  · intro p hp a b ha hb
    rw [lookupTag_buildTagIndex, lookupTag_buildTagIndex]
    exact ⟨mem_groupOf.mpr ⟨hp, ha⟩, mem_groupOf.mpr ⟨hp, hb⟩⟩
  · intro p hp
    rw [lookupTag_buildTagIndex] at hp
    exact mem_groupOf.mp hp
  · rw [lookupTag_buildTagIndex]
    exact pairwise_groupOf h

/-- C2 witness: in the sample sorted post list, the newest `go`-tagged post is
in the `go` group. -/
theorem claim_C2_witness : docP1 ∈ lookupTag (buildTagIndex postsSortedW) (("go").data) :=
  (claim_C2 postsSortedW (("go").data) (by decide)).1 docP1 (by decide) (by decide)

lemma escapeChar_no_angle (c : Char) : ∀ x ∈ escapeChar c, x ≠ '<' ∧ x ≠ '>' := by
  intro x hx
  unfold escapeChar at hx
  by_cases h1 : c = '&'
  · rw [if_pos h1] at hx
    exact (by decide : ∀ y ∈ (['&', 'a', 'm', 'p', ';'] : Str), y ≠ '<' ∧ y ≠ '>') x hx
  rw [if_neg h1] at hx
  by_cases h2 : c = '<'
  · rw [if_pos h2] at hx
    exact (by decide : ∀ y ∈ (['&', 'l', 't', ';'] : Str), y ≠ '<' ∧ y ≠ '>') x hx
  rw [if_neg h2] at hx
  by_cases h3 : c = '>'
  · rw [if_pos h3] at hx
    exact (by decide : ∀ y ∈ (['&', 'g', 't', ';'] : Str), y ≠ '<' ∧ y ≠ '>') x hx
  rw [if_neg h3] at hx
  by_cases h4 : c = '"'
  · rw [if_pos h4] at hx
    exact (by decide : ∀ y ∈ (['&', '#', '3', '4', ';'] : Str), y ≠ '<' ∧ y ≠ '>') x hx
  rw [if_neg h4] at hx
  by_cases h5 : c.toNat = 39
  · rw [if_pos h5] at hx
    exact (by decide : ∀ y ∈ (['&', '#', '3', '9', ';'] : Str), y ≠ '<' ∧ y ≠ '>') x hx
  rw [if_neg h5, List.mem_singleton] at hx
  subst hx
  exact ⟨h2, h3⟩

lemma htmlEscape_no_angle (s : Str) : ∀ x ∈ htmlEscape s, x ≠ '<' ∧ x ≠ '>' := by
  induction s with
  | nil => simp [htmlEscape]
  | cons c cs ih =>
    intro x hx
    rcases List.mem_append.mp hx with h | h
    · exact escapeChar_no_angle c x h
    · exact ih x h

lemma htmlEscape_append (s t : Str) : htmlEscape (s ++ t) = htmlEscape s ++ htmlEscape t := by
  induction s with
  | nil => rfl
  | cons c cs ih => simp [htmlEscape, ih]

lemma joinEntries_append (s t : List Document) :
    joinEntries (s ++ t) = joinEntries s ++ joinEntries t := by
  induction s with
  | nil => rfl
  | cons d ds ih => simp [joinEntries, ih]

lemma renderEntry_split (doc : Document) :
    renderEntry doc = entryPre doc ++ htmlEscape doc.content ++ entryAfter := by
  simp only [renderEntry, entryPre, entryAfter, List.append_assoc]

/-- C4: a feed entry's content body is emitted through the HTML-escape
filter inside the `<content type="html">` element; escaping turns `<script>`
into `&lt;script&gt;` and leaves no raw angle bracket in the escaped body. -/
theorem claim_C4 (credentials : Credentials) (documents : List Document) (doc : Document)
    (hmem : doc ∈ documents) (a b : Str)
    (hs : doc.content = a ++ ("<script>").data ++ b) :
    renderEntry doc = entryPre doc ++ htmlEscape doc.content ++ entryAfter ∧
    (∃ A B : Str, renderFeedTemplate credentials documents =
      A ++ entryPre doc ++ htmlEscape doc.content ++ entryAfter ++ B) ∧
    htmlEscape doc.content = htmlEscape a ++ ("&lt;script&gt;").data ++ htmlEscape b ∧
    (∀ x ∈ htmlEscape doc.content, x ≠ '<' ∧ x ≠ '>') := by
  refine ⟨renderEntry_split doc, ?_, ?_, htmlEscape_no_angle _⟩
  · obtain ⟨s, t2, rfl⟩ := List.append_of_mem hmem
    refine ⟨feedContentPre credentials.sitename ++ pyIsoformat credentials.date ++
      'Z' :: (feedSufHead credentials.siteurl_alt credentials.siteurl_self ++ joinEntries s),
      joinEntries t2 ++ feedClose, ?_⟩
    rw [renderFeedTemplate, feedContentSuf]
    rw [show doc :: t2 = [doc] ++ t2 from rfl, joinEntries_append, joinEntries_append]
    simp only [joinEntries, List.append_nil, renderEntry_split]
    simp only [List.append_assoc, List.cons_append]
  · rw [hs, htmlEscape_append, htmlEscape_append,
      (by decide : htmlEscape (("<script>").data) = ("&lt;script&gt;").data)]

/-- C4 witness: the sample post's body `x<script>y` escapes to the literal
`&lt;script&gt;` form inside the feed. -/
theorem claim_C4_witness :
    htmlEscape docP1.content =
      htmlEscape (("x").data) ++ ("&lt;script&gt;").data ++ htmlEscape (("y").data) :=
  (claim_C4 credsW docsW docP1 (by decide) (("x").data) (("y").data) (by decide)).2.2.1

lemma writeFile_ok {fs fs' : FS} {p c : Str} (h : fs.writeFile p c = .ok fs') :
    fs'.files = setFile fs.files p c ∧ fs'.dirs = fs.dirs := by
  unfold FS.writeFile at h
  split at h
  · cases h
    exact ⟨rfl, rfl⟩
  · cases h

lemma writeFile_error {fs : FS} {p c : Str}
    (h : ¬ (dirname p ∈ fs.dirs ∨ dirname p = [])) :
    fs.writeFile p c = .error .fileSystemError := by
  unfold FS.writeFile
  rw [if_neg h]

lemma mkdirFuel_files (fuel : Nat) (fs : FS) (p : Str) :
    (mkdirFuel fuel fs p).files = fs.files := by
  induction fuel generalizing fs p with
  | zero => rfl
  | succ n ih =>
    unfold mkdirFuel
    split
    · rfl
    · simpa using ih fs (dirname p)

lemma mkdirFuel_dirs_mono (fuel : Nat) (fs : FS) (p : Str) :
    fs.dirs ⊆ (mkdirFuel fuel fs p).dirs := by
  induction fuel generalizing fs p with
  | zero => exact fun _ h => h
  | succ n ih =>
    unfold mkdirFuel
    split
    · exact fun _ h => h
    · exact fun x hx => List.mem_cons_of_mem _ (ih fs (dirname p) hx)

lemma mkdir_files (fs : FS) (p : Str) : (fs.mkdir p).files = fs.files :=
  mkdirFuel_files _ fs p

lemma mkdir_dirs_mono (fs : FS) (p : Str) : fs.dirs ⊆ (fs.mkdir p).dirs :=
  mkdirFuel_dirs_mono _ fs p

lemma mkdir_mem {fs : FS} {p : Str} (h : p ≠ []) : p ∈ (fs.mkdir p).dirs := by
  unfold FS.mkdir
  unfold mkdirFuel
  split
  case isTrue hc =>
    rcases hc with hc | hc
    · exact absurd hc h
    · exact hc
  case isFalse hc =>
    exact List.mem_cons_self _ _

lemma getFile_setFile (files : List (Str × Str)) (p c q : Str) :
    getFile (setFile files p c) q = if p = q then some c else getFile files q := by
  induction files with
  | nil =>
    by_cases h : p = q <;> simp [setFile, getFile, h]
  | cons f fs ih =>
    by_cases hfp : f.1 = p
    · by_cases hpq : p = q
      · subst hpq
        simp [setFile, getFile, hfp]
      · have hfq : ¬ f.1 = q := by rw [hfp]; exact hpq
        simp [setFile, getFile, hfp, hpq, hfq]
    · by_cases hfq : f.1 = q
      · have hpq : ¬ p = q := by
          intro hh
          exact hfp (by rw [hh, hfq])
        have hqp : ¬ q = p := fun hh => hpq hh.symm
        simp [setFile, getFile, hfp, hfq, hpq, hqp]
      · simp [setFile, getFile, hfp, hfq, ih]

lemma feed_ok (conf : Conf) (now : PyDatetime) (posts : List Document) (fs : FS) :
    ∃ fs', Blog.feed conf now posts fs = .ok fs' ∧
      fs'.files = setFile fs.files (feedPath conf) (feedContent conf now posts) := by
  unfold Blog.feed
  by_cases h : dirname (feedPath conf) = []
  · unfold FS.writeFile
    rw [if_pos (Or.inr h)]
    exact ⟨_, rfl, by rw [mkdir_files]⟩
  · unfold FS.writeFile
    rw [if_pos (Or.inl (mkdir_mem h))]
    exact ⟨_, rfl, by rw [mkdir_files]⟩

/-- C3: with a nonnegative configured posts number `n`, the feed truncation
`posts[:n]` is exactly the first `n` posts of the sorted list, all of them
when `n` is at least the list length, and the written feed file renders
precisely that prefix. -/
theorem claim_C3 (conf : Conf) (now : PyDatetime) (posts : List Document) (n : Nat)
    (hn : conf.feedPostsNumber = (n : Int)) :
    pyTruncate conf.feedPostsNumber posts = posts.take n ∧
    (posts.length ≤ n → pyTruncate conf.feedPostsNumber posts = posts) ∧
    ∀ fs fs' : FS, Blog.feed conf now posts fs = .ok fs' →
      getFile fs'.files (feedPath conf) =
        some (renderFeedTemplate (feedCredentials conf now) (posts.take n)) := by
  have h1 : pyTruncate conf.feedPostsNumber posts = posts.take n := by
    rw [hn]
    unfold pyTruncate
    rw [if_pos (Int.ofNat_nonneg n)]
    simp
  refine ⟨h1, fun hlen => ?_, fun fs fs' hf => ?_⟩
  · rw [h1]
    exact List.take_of_length_le hlen
  · unfold Blog.feed at hf
    have hw := writeFile_ok hf
    rw [hw.1, mkdir_files, getFile_setFile, if_pos rfl]
    unfold feedContent
    rw [h1]

/-- C3 witness: with the sample configuration (`posts_number = 2`) the
truncation keeps the two most recent posts. -/
theorem claim_C3_witness :
    pyTruncate confW.feedPostsNumber postsSortedW = postsSortedW.take 2 :=
  (claim_C3 confW nowW1 postsSortedW 2 rfl).1

/-- C5: a non-post document never appears in the output of `extract_posts`,
hence in no tag group and not among the feed's documents, wherever it sits in
the input. -/
theorem claim_C5 (documents : List Document) (d : Document) (hd : d.isPost = false) :
    d ∉ extract_posts documents ∧
    (∀ t : Str, d ∉ lookupTag (buildTagIndex (extract_posts documents)) t) ∧
    (∀ n : Int, d ∉ pyTruncate n (extract_posts documents)) := by
  have hmem : d ∉ extract_posts documents := by
    intro hm
    have hf : d ∈ documents.filter (fun x => x.isPost) :=
      ((sortDesc_perm _).mem_iff).mp hm
    have := List.of_mem_filter hf
    rw [hd] at this
    cases this
  refine ⟨hmem, fun t hm => ?_, fun n hm => ?_⟩
  · rw [lookupTag_buildTagIndex] at hm
    exact hmem (mem_groupOf.mp hm).1
  · have hsub : pyTruncate n (extract_posts documents) ⊆ extract_posts documents := by
      unfold pyTruncate
      split <;> exact List.take_subset _ _
    exact hmem (hsub hm)

/-- C5 witness: the sample non-post document is excluded from the sample
input's extracted posts. -/
theorem claim_C5_witness : docQ ∉ extract_posts docsW :=
  (claim_C5 docsW docQ rfl).1

/-- C10: a negative configured posts number does not error and does not pick
the most recent posts: `posts[:n]` keeps the first `len(posts) + n` entries,
none when `-n` is at least the length, and for `n = -1` every post except the
oldest (last) one; the feed write itself still succeeds. -/
theorem claim_C10 (conf : Conf) (now : PyDatetime) (posts : List Document)
    (hn : conf.feedPostsNumber < 0) :
    pyTruncate conf.feedPostsNumber posts =
      posts.take (posts.length - (-conf.feedPostsNumber).toNat) ∧
    (posts.length ≤ (-conf.feedPostsNumber).toNat →
      pyTruncate conf.feedPostsNumber posts = []) ∧
    (conf.feedPostsNumber = -1 → pyTruncate conf.feedPostsNumber posts = posts.dropLast) ∧
    (∀ fs : FS, ∃ fs', Blog.feed conf now posts fs = .ok fs') := by
  have h1 : pyTruncate conf.feedPostsNumber posts =
      posts.take (posts.length - (-conf.feedPostsNumber).toNat) := by
    unfold pyTruncate
    rw [if_neg (not_le.mpr hn)]
  refine ⟨h1, fun hlen => ?_, fun hminus => ?_, fun fs => ?_⟩
  · rw [h1, Nat.sub_eq_zero_of_le hlen, List.take_zero]
  · rw [h1, hminus]
    simp [List.dropLast_eq_take]
  · obtain ⟨fs', hfs', _⟩ := feed_ok conf now posts fs
    exact ⟨fs', hfs'⟩

/-- C10 witness: with `posts_number = -1` the sample feed keeps every post
but the oldest. -/
theorem claim_C10_witness :
    pyTruncate confNeg.feedPostsNumber postsSortedW = postsSortedW.dropLast :=
  (claim_C10 confNeg nowW1 postsSortedW (by decide)).2.2.1 rfl

lemma tagsLoop_dirs_mono {conf : Conf} {tmpl : Tmpl} :
    ∀ {idx : List (Str × List Document)} {fs fs' : FS},
      tagsLoop conf tmpl idx fs = .ok fs' → fs.dirs ⊆ fs'.dirs := by
  intro idx
  induction idx with
  | nil =>
    intro fs fs' h
    cases h
    exact fun _ hx => hx
  | cons tg rest ih =>
    intro fs fs' h
    unfold tagsLoop at h
    cases hw : (fs.mkdir (tagDirPath conf tg.1)).writeFile (tagFilePath conf tg.1)
        (tmpl tg.2 conf.sitename) with
    | error e => rw [hw] at h; cases h
    | ok fs₁ =>
      rw [hw] at h
      have hmono := (writeFile_ok hw).2
      intro x hx
      exact ih h (hmono ▸ mkdir_dirs_mono fs (tagDirPath conf tg.1) hx)

lemma tagsLoop_tagDirs {conf : Conf} {tmpl : Tmpl} :
    ∀ {idx : List (Str × List Document)} {fs fs' : FS},
      tagsLoop conf tmpl idx fs = .ok fs' →
      ∀ tg ∈ idx, tagDirPath conf tg.1 ≠ [] → tagDirPath conf tg.1 ∈ fs'.dirs := by
  intro idx
  induction idx with
  | nil =>
    intro fs fs' _ tg htg
    cases htg
  | cons tg0 rest ih =>
    intro fs fs' h tg htg hne
    unfold tagsLoop at h
    cases hw : (fs.mkdir (tagDirPath conf tg0.1)).writeFile (tagFilePath conf tg0.1)
        (tmpl tg0.2 conf.sitename) with
    | error e => rw [hw] at h; cases h
    | ok fs₁ =>
      rw [hw] at h
      rcases List.mem_cons.mp htg with rfl | htg'
      · have hmem : tagDirPath conf tg.1 ∈ fs₁.dirs := by
          rw [(writeFile_ok hw).2]
          exact mkdir_mem hne
        exact tagsLoop_dirs_mono h hmem
      · exact ih h tg htg' hne

/-- C8: when the parent directory of the index output path is missing, the
index write fails with the filesystem error and the index operation never
creates a directory; by contrast the feed always succeeds (it creates its
parent directory first) and the tags operation creates every tag directory it
writes into. -/
theorem claim_C8 (conf : Conf) (tmpl : Tmpl) (posts : List Document) (now : PyDatetime)
    (fs : FS) (h1 : dirname (indexPath conf) ∉ fs.dirs)
    (h2 : dirname (indexPath conf) ≠ []) :
    Blog.index conf tmpl posts fs = .error .fileSystemError ∧
    (∀ fsa fsb : FS, Blog.index conf tmpl posts fsa = .ok fsb → fsb.dirs = fsa.dirs) ∧
    (∀ fsa : FS, ∃ fsb, Blog.feed conf now posts fsa = .ok fsb) ∧
    (∀ fsa fsb : FS, Blog.tags conf tmpl posts fsa = .ok fsb →
      ∀ tg ∈ buildTagIndex posts, tagDirPath conf tg.1 ≠ [] →
        tagDirPath conf tg.1 ∈ fsb.dirs) := by
  refine ⟨?_, ?_, ?_, ?_⟩
  · unfold Blog.index
    exact writeFile_error (not_or.mpr ⟨h1, h2⟩)
  · intro fsa fsb h
    exact (writeFile_ok h).2
  · intro fsa
    obtain ⟨fsb, hfsb, _⟩ := feed_ok conf now posts fsa
    exact ⟨fsb, hfsb⟩
  · intro fsa fsb h
    exact tagsLoop_tagDirs h

/-- C8 witness: on a filesystem with no directories the sample index write
fails with the filesystem error. -/
theorem claim_C8_witness :
    Blog.index confW tmplW postsSortedW fsEmpty = .error .fileSystemError :=
  (claim_C8 confW tmplW postsSortedW nowW1 fsEmpty (by decide) (by decide)).1

lemma digitChar_props (d : Nat) :
    digitChar d ≠ '.' ∧ digitChar d ≠ '+' ∧ digitChar d ≠ 'Z' := by
  have h : d % 10 = 0 ∨ d % 10 = 1 ∨ d % 10 = 2 ∨ d % 10 = 3 ∨ d % 10 = 4 ∨
      d % 10 = 5 ∨ d % 10 = 6 ∨ d % 10 = 7 ∨ d % 10 = 8 ∨ d % 10 = 9 := by omega
  unfold digitChar
  rcases h with h | h | h | h | h | h | h | h | h | h <;> rw [h] <;>
    exact ⟨by decide, by decide, by decide⟩

lemma natCharsAux_props (fuel : Nat) :
    ∀ n : Nat, ∀ c ∈ natCharsAux fuel n, c ≠ '.' ∧ c ≠ '+' ∧ c ≠ 'Z' := by
  induction fuel with
  | zero => simp [natCharsAux]
  | succ f ih =>
    intro n c hc
    unfold natCharsAux at hc
    split at hc
    · rw [List.mem_singleton] at hc
      subst hc
      exact digitChar_props n
    · rcases List.mem_append.mp hc with h | h
      · exact ih _ c h
      · rw [List.mem_singleton] at h
        subst h
        exact digitChar_props _

lemma padZeros_props (w n : Nat) :
    ∀ c ∈ padZeros w n, c ≠ '.' ∧ c ≠ '+' ∧ c ≠ 'Z' := by
  intro c hc
  rcases List.mem_append.mp hc with h | h
  · rw [List.eq_of_mem_replicate h]
    exact ⟨by decide, by decide, by decide⟩
  · exact natCharsAux_props _ _ c h

lemma pyIsoformat_props {d : PyDatetime} (hm : d.microsecond = 0) :
    ∀ c ∈ pyIsoformat d, c ≠ '.' ∧ c ≠ '+' ∧ c ≠ 'Z' := by
  intro c hc
  unfold pyIsoformat at hc
  rw [hm, if_pos rfl, List.append_nil] at hc
  simp only [List.mem_append, List.mem_cons] at hc
  rcases hc with ((((h | h) | h) | h) | h) | h
  · exact padZeros_props _ _ c h
  · rcases h with rfl | h
    · exact ⟨by decide, by decide, by decide⟩
    · exact padZeros_props _ _ c h
  · rcases h with rfl | h
    · exact ⟨by decide, by decide, by decide⟩
    · exact padZeros_props _ _ c h
  · rcases h with rfl | h
    · exact ⟨by decide, by decide, by decide⟩
    · exact padZeros_props _ _ c h
  · rcases h with rfl | h
    · exact ⟨by decide, by decide, by decide⟩
    · exact padZeros_props _ _ c h
  · rcases h with rfl | h
    · exact ⟨by decide, by decide, by decide⟩
    · exact padZeros_props _ _ c h

/-- C6: the feed's `<updated>` value is the generation instant with the
microsecond field zeroed, rendered as the plain ISO-8601 string with a
literal `Z` character concatenated after it; the ISO part carries no
fractional second, no offset sign and no `Z` of its own. -/
theorem claim_C6 (conf : Conf) (now : PyDatetime) (documents : List Document) :
    renderFeedTemplate (feedCredentials conf now) documents =
      feedContentPre conf.sitename ++ pyIsoformat (now.replaceMicrosecond 0) ++
        'Z' :: feedContentSuf (normalize_url conf.siteurl)
          (normalize_url conf.siteurl ++ conf.feedSaveAs) documents ∧
    (feedCredentials conf now).date.microsecond = 0 ∧
    (∀ c ∈ pyIsoformat ((feedCredentials conf now).date), c ≠ '.' ∧ c ≠ '+' ∧ c ≠ 'Z') :=
  ⟨rfl, rfl, pyIsoformat_props rfl⟩

/-- C7: in the feed credentials, `siteurl_alt` is the normalized configured
site URL, and `siteurl_self` is exactly that value with the feed's relative
save path appended, nothing inserted or dropped by the concatenation. -/
theorem claim_C7 (conf : Conf) (now : PyDatetime) :
    (feedCredentials conf now).siteurl_alt = normalize_url conf.siteurl ∧
    (feedCredentials conf now).siteurl_self =
      (feedCredentials conf now).siteurl_alt ++ conf.feedSaveAs ∧
    ((feedCredentials conf now).siteurl_self).length =
      ((feedCredentials conf now).siteurl_alt).length + conf.feedSaveAs.length := by
  refine ⟨rfl, rfl, ?_⟩
  simp [feedCredentials, List.length_append]

lemma applyWrites_append (ws₁ ws₂ : List (Str × Str)) (files : List (Str × Str)) :
    applyWrites (ws₁ ++ ws₂) files = applyWrites ws₂ (applyWrites ws₁ files) := by
  induction ws₁ generalizing files with
  | nil => rfl
  | cons w ws ih => simp [applyWrites, ih]

lemma getFile_applyWrites (ws : List (Str × Str)) (files : List (Str × Str)) (p : Str) :
    getFile (applyWrites ws files) p =
      match lastWrite ws p with
      | some c => some c
      | none => getFile files p := by
  induction ws generalizing files with
  | nil => rfl
  | cons w ws ih =>
    simp only [applyWrites, lastWrite]
    rw [ih]
    cases h : lastWrite ws p with
    | some c => rfl
    | none =>
      rw [getFile_setFile]
      by_cases hw : w.1 = p <;> simp [hw]

lemma lastWrite_append_singleton (ws : List (Str × Str)) (q c p : Str) :
    lastWrite (ws ++ [(q, c)]) p = if q = p then some c else lastWrite ws p := by
  induction ws with
  | nil => rfl
  | cons w ws ih =>
    simp only [List.cons_append, lastWrite, List.append_eq]
    rw [ih]
    by_cases h : q = p
    · rw [if_pos h, if_pos h]
    · rw [if_neg h, if_neg h]

lemma tagsLoop_files {conf : Conf} {tmpl : Tmpl} :
    ∀ {idx : List (Str × List Document)} {fs fs' : FS},
      tagsLoop conf tmpl idx fs = .ok fs' →
      fs'.files = applyWrites (tagWrites conf tmpl idx) fs.files := by
  intro idx
  induction idx with
  | nil =>
    intro fs fs' h
    cases h
    rfl
  | cons tg rest ih =>
    intro fs fs' h
    unfold tagsLoop at h
    cases hw : (fs.mkdir (tagDirPath conf tg.1)).writeFile (tagFilePath conf tg.1)
        (tmpl tg.2 conf.sitename) with
    | error e => rw [hw] at h; cases h
    | ok fs₁ =>
      rw [hw] at h
      rw [ih h, (writeFile_ok hw).1, mkdir_files]
      rfl

lemma generate_ok_files {conf : Conf} {tmpl : Tmpl} {now : PyDatetime}
    {documents : List Document} {fs fs' : FS}
    (h : Blog.generate conf tmpl now documents fs = .ok fs') :
    fs'.files = applyWrites (generateWrites conf tmpl now documents) fs.files := by
  simp only [Blog.generate] at h
  cases hi : Blog.index conf tmpl (extract_posts documents) fs with
  | error e => rw [hi] at h; cases h
  | ok fs₁ =>
    rw [hi] at h
    simp only [Except.bind] at h
    cases ht : Blog.tags conf tmpl (extract_posts documents) fs₁ with
    | error e => rw [ht] at h; cases h
    | ok fs₂ =>
      rw [ht] at h
      simp only [Except.bind] at h
      obtain ⟨fs₃, hf, hfiles⟩ := feed_ok conf now (extract_posts documents) fs₂
      rw [hf] at h
      cases h
      have h₁ := (writeFile_ok hi).1
      have h₂ := tagsLoop_files ht
      rw [hfiles, h₂, h₁]
      simp only [generateWrites, List.cons_append, List.append_eq, applyWrites_append,
        applyWrites]

/-- C9: two consecutive `generate` runs over the same documents,
configuration and template leave identical contents at every path other than
the feed's, and at the feed path each run leaves the same rendered text up to
the embedded generation timestamp — all outputs are a function of the inputs
and the generation instant only. -/
theorem claim_C9 (conf : Conf) (tmpl : Tmpl) (documents : List Document)
    (fs fs₁ fs₂ : FS) (now₁ now₂ : PyDatetime)
    (h₁ : Blog.generate conf tmpl now₁ documents fs = .ok fs₁)
    (h₂ : Blog.generate conf tmpl now₂ documents fs₁ = .ok fs₂) :
    (∀ p : Str, p ≠ feedPath conf → getFile fs₂.files p = getFile fs₁.files p) ∧
    getFile fs₁.files (feedPath conf) =
      some (feedContentPre conf.sitename ++ pyIsoformat (now₁.replaceMicrosecond 0) ++
        'Z' :: feedContentSuf (normalize_url conf.siteurl)
          (normalize_url conf.siteurl ++ conf.feedSaveAs)
          (pyTruncate conf.feedPostsNumber (extract_posts documents))) ∧
    getFile fs₂.files (feedPath conf) =
      some (feedContentPre conf.sitename ++ pyIsoformat (now₂.replaceMicrosecond 0) ++
        'Z' :: feedContentSuf (normalize_url conf.siteurl)
          (normalize_url conf.siteurl ++ conf.feedSaveAs)
          (pyTruncate conf.feedPostsNumber (extract_posts documents))) := by
  have g₁ := generate_ok_files h₁
  have g₂ := generate_ok_files h₂
  have hsplit : ∀ now : PyDatetime, generateWrites conf tmpl now documents =
      ((indexPath conf, tmpl (extract_posts documents) conf.sitename) ::
        tagWrites conf tmpl (buildTagIndex (extract_posts documents))) ++
      [(feedPath conf, feedContent conf now (extract_posts documents))] :=
    fun _ => rfl
  refine ⟨?_, ?_, ?_⟩
  · intro p hp
    have hlw : ∀ now : PyDatetime,
        lastWrite (generateWrites conf tmpl now documents) p =
          lastWrite ((indexPath conf, tmpl (extract_posts documents) conf.sitename) ::
            tagWrites conf tmpl (buildTagIndex (extract_posts documents))) p := by
      intro now
      rw [hsplit now, lastWrite_append_singleton,
        if_neg (show ¬ feedPath conf = p from fun hh => hp hh.symm)]
    rw [g₂, g₁, getFile_applyWrites, getFile_applyWrites, hlw now₁, hlw now₂]
    cases hc : lastWrite ((indexPath conf, tmpl (extract_posts documents) conf.sitename) ::
        tagWrites conf tmpl (buildTagIndex (extract_posts documents))) p with
    | some c => rfl
    | none => rfl
  · rw [g₁, getFile_applyWrites, hsplit now₁, lastWrite_append_singleton, if_pos rfl]
    rfl
  · rw [g₂, getFile_applyWrites, hsplit now₂, lastWrite_append_singleton, if_pos rfl]
    rfl

/-- C9 witness: after the sample second run, the feed file holds the second
instant's render. -/
theorem claim_C9_witness :
    getFile c9run2.files (feedPath confW) =
      some (feedContentPre confW.sitename ++ pyIsoformat (nowW2.replaceMicrosecond 0) ++
        'Z' :: feedContentSuf (normalize_url confW.siteurl)
          (normalize_url confW.siteurl ++ confW.feedSaveAs)
          (pyTruncate confW.feedPostsNumber (extract_posts docsW))) :=
  (claim_C9 confW tmplW docsW fsW c9run1 c9run2 nowW1 nowW2 (by rfl) (by rfl)).2.2
